import Mathlib

/-!
Shallow embedding of the IoT box-management service (`src/main.py`) and
verification of the specification's claims about it.

The service is a single-table CRUD API over box records keyed by MAC address.
We embed:
* the Pydantic validation layer (`BoxBase.validate_mac`, `validate_ip`,
  `validate_process`, and the `BoxUpdate` variants),
* the record store (one table, ids assigned monotonically, records kept in
  primary-key order),
* the endpoint logic of `create_box`, `get_boxes`, `update_box`,
  `export_to_excel` and `normalize_processes`.

Timestamps are modelled as abstract `Nat` ticks; `datetime.utcnow()` becomes an
explicit `now` argument.  The database result order of
`ORDER BY created_at DESC` (no secondary key in the source) is modelled as a
stable sort over the stored (primary-key-ordered) row list.
-/

set_option maxRecDepth 8192

namespace BoxApi

instance {ε α : Type} [DecidableEq ε] [DecidableEq α] : DecidableEq (Except ε α) :=
  fun x y =>
    match x, y with
    | .ok a, .ok b =>
        if h : a = b then .isTrue (by rw [h]) else .isFalse (by simp [h])
    | .error a, .error b =>
        if h : a = b then .isTrue (by rw [h]) else .isFalse (by simp [h])
    | .ok _, .error _ => .isFalse (by simp)
    | .error _, .ok _ => .isFalse (by simp)

/-- Embedding of Python `str.upper()` on the ASCII data handled by this service:
uppercase every character. -/
def pyUpper (s : String) : String := ⟨s.data.map Char.toUpper⟩

/-- The character class `[0-9A-Fa-f]` of the MAC regex in `validate_mac`. -/
def isHexDigitChar (c : Char) : Bool :=
  (decide ('0' ≤ c) && decide (c ≤ '9')) ||
  (decide ('A' ≤ c) && decide (c ≤ 'F')) ||
  (decide ('a' ≤ c) && decide (c ≤ 'f'))

/-- The separator class `[:-]` of the MAC regex. -/
def isSepChar (c : Char) : Bool := (c == ':') || (c == '-')

/-- `macGroups n cs` matches `([0-9A-Fa-f]{2}[:-]){n}[0-9A-Fa-f]{2}` against
the whole character list `cs`.  Each of the `n` separators is chosen
independently from `[:-]`. -/
def macGroups : Nat → List Char → Bool
  | 0, [a, b] => isHexDigitChar a && isHexDigitChar b
  | n + 1, a :: b :: s :: rest =>
      isHexDigitChar a && isHexDigitChar b && isSepChar s && macGroups n rest
  | _, _ => false

/-- `re.match(r'^([0-9A-Fa-f]{2}[:-]){5}([0-9A-Fa-f]{2})$', v)` as a Boolean.
Python's `$` (without `re.MULTILINE`) also matches just before one trailing
newline, which the second disjunct reproduces. -/
def macRegexMatch (v : String) : Bool :=
  macGroups 5 v.data ||
    (v.data.getLast? == some '\n' && macGroups 5 v.data.dropLast)

/-- The digit class `\d` of the IP regex (ASCII input). -/
def isDigitChar (c : Char) : Bool := decide ('0' ≤ c) && decide (c ≤ '9')

/-- `ipGroups n cs` matches `(\d{1,3}\.){n}\d{1,3}` against the whole list,
with backtracking over the 1–3 digit group lengths. -/
def ipGroups : Nat → List Char → Bool
  | 0, cs =>
      match cs with
      | [a] => isDigitChar a
      | [a, b] => isDigitChar a && isDigitChar b
      | [a, b, c] => isDigitChar a && isDigitChar b && isDigitChar c
      | _ => false
  | n + 1, cs =>
      (match cs with
       | a :: '.' :: rest => isDigitChar a && ipGroups n rest
       | _ => false) ||
      (match cs with
       | a :: b :: '.' :: rest => isDigitChar a && isDigitChar b && ipGroups n rest
       | _ => false) ||
      (match cs with
       | a :: b :: c :: '.' :: rest =>
           isDigitChar a && isDigitChar b && isDigitChar c && ipGroups n rest
       | _ => false)

/-- `re.match(r'^(\d{1,3}\.){3}\d{1,3}$', v)` as a Boolean, with the same
trailing-newline behaviour of `$` as `macRegexMatch`. -/
def ipRegexMatch (v : String) : Bool :=
  ipGroups 3 v.data ||
    (v.data.getLast? == some '\n' && ipGroups 3 v.data.dropLast)

/-- Error taxonomy of the service (spec §7), plus the store-level integrity
failure raised when a `nullable=False` column is assigned NULL at commit. -/
inductive ApiError where
  | missingRequired
  | invalidFormat
  | duplicateKey
  | notFound
  | integrityError
deriving DecidableEq, Repr

/-- `BoxBase.validate_mac` (src/main.py lines 47–54): empty input raises the
"please enter a MAC address" error; a non-match of the regex raises the
format error; on success the value is returned uppercased (`v.upper()`), with
the separators left exactly as submitted. -/
def validate_mac (v : String) : Except ApiError String :=
  if v.isEmpty then .error .missingRequired
  else if macRegexMatch v then .ok (pyUpper v)
  else .error .invalidFormat

/-- `BoxBase.validate_ip` (src/main.py lines 56–63): `None` passes through,
otherwise the dotted-quad regex must match; the value is returned unchanged. -/
def validate_ip (v : Option String) : Except ApiError (Option String) :=
  match v with
  | none => .ok none
  | some s => if ipRegexMatch s then .ok (some s) else .error .invalidFormat

/-- `BoxBase.validate_process` (src/main.py lines 65–69): a truthy (nonempty)
value is uppercased, a falsy one (the empty string) is returned unchanged. -/
def validate_process (v : String) : String :=
  if v.isEmpty then v else pyUpper v

/-- A raw `POST /boxes` body before Pydantic validation.  `none` on
`mac_address`/`process` models the field being absent (or JSON null, which
Pydantic rejects for a required `str` just like absence); for the optional
fields absent and null coincide in `BoxCreate`. -/
structure RawBoxCreate where
  mac_address : Option String
  ip_address : Option String
  main_equipment : Option String
  location : Option String
  process : Option String
  manager : Option String
  note : Option String
deriving DecidableEq, Repr

/-- A validated `BoxCreate` payload, as `create_box` receives it. -/
structure BoxPayload where
  mac_address : String
  ip_address : Option String
  main_equipment : Option String
  location : Option String
  process : String
  manager : Option String
  note : Option String
deriving DecidableEq, Repr

/-- Pydantic validation of `BoxCreate` (the `BoxBase` model, src/main.py
lines 38–72): required fields must be present, then the three field
validators run. -/
def boxCreateValidate (r : RawBoxCreate) : Except ApiError BoxPayload :=
  match r.mac_address with
  | none => .error .missingRequired
  | some m =>
      match validate_mac m with
      | .error e => .error e
      | .ok mac =>
          match validate_ip r.ip_address with
          | .error e => .error e
          | .ok ip =>
              match r.process with
              | none => .error .missingRequired
              | some p =>
                  .ok { mac_address := mac, ip_address := ip,
                        main_equipment := r.main_equipment,
                        location := r.location,
                        process := validate_process p,
                        manager := r.manager, note := r.note }

/-- A stored row of the `iot_boxes` table (src/main.py lines 23–35).
`created_at`/`updated_at` are abstract ticks. -/
structure BoxRecord where
  id : Nat
  mac_address : String
  ip_address : Option String
  main_equipment : Option String
  location : Option String
  process : String
  manager : Option String
  note : Option String
  created_at : Nat
  updated_at : Nat
deriving DecidableEq, Repr

/-- The database state: rows in primary-key (insertion) order, plus the next
autoincrement id. -/
structure Store where
  records : List BoxRecord
  nextId : Nat
deriving DecidableEq, Repr

/-- `create_box` (src/main.py lines 157–167): reject when a stored row already
has exactly the (validated, uppercased) MAC string, otherwise append a new row
with the next id and both timestamps set to now. -/
def create_box (st : Store) (box : BoxPayload) (now : Nat) :
    Except ApiError (Store × BoxRecord) :=
  if st.records.any (fun r => r.mac_address == box.mac_address) then
    .error .duplicateKey
  else
    let newBox : BoxRecord :=
      { id := st.nextId, mac_address := box.mac_address,
        ip_address := box.ip_address, main_equipment := box.main_equipment,
        location := box.location, process := box.process,
        manager := box.manager, note := box.note,
        created_at := now, updated_at := now }
    .ok ({ records := st.records ++ [newBox], nextId := st.nextId + 1 }, newBox)

/-- The full `POST /boxes` path: Pydantic validation then `create_box`. -/
def createBoxEndpoint (st : Store) (raw : RawBoxCreate) (now : Nat) :
    Except ApiError (Store × BoxRecord) :=
  match boxCreateValidate raw with
  | .error e => .error e
  | .ok b => create_box st b now

/-- SQL `column LIKE '%sub%'` on a non-NULL value: substring containment. -/
def strContains (s sub : String) : Bool := decide (sub.data <:+: s.data)

/-- The same on a nullable column: `NULL LIKE '%sub%'` is not true, so a NULL
field never matches. -/
def optContains (s : Option String) (sub : String) : Bool :=
  match s with
  | none => false
  | some t => strContains t sub

/-- The `or_(...)` search filter of `get_boxes` (src/main.py lines 180–187):
substring match over the six text columns. -/
def matchesSearch (search : String) (r : BoxRecord) : Bool :=
  strContains r.mac_address search || optContains r.ip_address search ||
  optContains r.main_equipment search || optContains r.location search ||
  strContains r.process search || optContains r.manager search

/-- Python truthiness of an `Optional[str]` query parameter (`if search:`):
true exactly for a present, nonempty string. -/
def pyTruthy : Option String → Bool
  | none => false
  | some s => !s.isEmpty

/-- The filter section of `get_boxes` (src/main.py lines 177–191): the search
filter, then the exact-match process filter, each applied only when the
parameter is truthy. -/
def getBoxesFilter (records : List BoxRecord) (search process : Option String) :
    List BoxRecord :=
  let afterSearch :=
    if pyTruthy search then records.filter (matchesSearch (search.getD ""))
    else records
  if pyTruthy process then afterSearch.filter (fun r => r.process == process.getD "")
  else afterSearch

/-- The result order relation of `ORDER BY created_at DESC`. -/
def createdDescRel (a b : BoxRecord) : Prop := b.created_at ≤ a.created_at

instance : DecidableRel createdDescRel := fun a b => Nat.decLe b.created_at a.created_at

instance : IsTotal BoxRecord createdDescRel :=
  ⟨fun a b => Nat.le_total b.created_at a.created_at⟩

instance : IsTrans BoxRecord createdDescRel :=
  ⟨fun _ _ _ h1 h2 => le_trans h2 h1⟩

/-- `query.order_by(BoxDB.created_at.desc())`: the source states no secondary
sort key, so ties are returned in the order of the underlying scan; we model
the result as a stable sort of the stored (primary-key-ordered) row list. -/
def sortByCreatedDesc (rs : List BoxRecord) : List BoxRecord :=
  rs.insertionSort createdDescRel

/-- The body of the `GET /boxes` response (src/main.py lines 198–204). -/
structure PaginatedResponse where
  total : Nat
  page : Nat
  page_size : Nat
  total_pages : Nat
  items : List BoxRecord
deriving DecidableEq, Repr

/-- `get_boxes` (src/main.py lines 169–204).  FastAPI's
`Query(1, ge=1)` / `Query(50, ge=1, le=1000)` guarantees `1 ≤ page` and
`1 ≤ page_size ≤ 1000` before this function runs. -/
def get_boxes (st : Store) (page page_size : Nat) (search process : Option String) :
    PaginatedResponse :=
  let q := getBoxesFilter st.records search process
  let total := q.length
  let offset := (page - 1) * page_size
  let items := ((sortByCreatedDesc q).drop offset).take page_size
  let total_pages := (total + page_size - 1) / page_size
  { total := total, page := page, page_size := page_size,
    total_pages := total_pages, items := items }

/-- A raw `PUT /boxes/{id}` body after Pydantic validation of `BoxUpdate`,
with the `exclude_unset` information: the outer `Option` is "was this field
provided", the inner one is the provided value or JSON null. -/
structure BoxUpdatePayload where
  mac_address : Option (Option String)
  ip_address : Option (Option String)
  main_equipment : Option (Option String)
  location : Option (Option String)
  process : Option (Option String)
  manager : Option (Option String)
  note : Option (Option String)
deriving DecidableEq, Repr

/-- `BoxUpdate.validate_mac` (src/main.py lines 83–92): `None` passes through,
the empty string raises the "please enter" error, a regex mismatch raises the
format error, and a match is uppercased. -/
def validateMacUpdate (v : Option String) : Except ApiError (Option String) :=
  match v with
  | none => .ok none
  | some s =>
      if s.isEmpty then .error .missingRequired
      else if macRegexMatch s then .ok (some (pyUpper s))
      else .error .invalidFormat

/-- `BoxUpdate.validate_process` (src/main.py lines 94–98): a truthy value is
uppercased, `None` and the empty string pass through. -/
def validateProcessUpdate (v : Option String) : Option String :=
  match v with
  | none => none
  | some p => some (validate_process p)

/-- The duplicate-MAC pre-check of `update_box` (src/main.py lines 219–222):
`if box_update.mac_address and box_update.mac_address != db_box.mac_address`,
then error when any stored row already has that MAC. -/
def updateMacCollides (st : Store) (db_box : BoxRecord) (u : BoxUpdatePayload) : Bool :=
  match u.mac_address with
  | some (some m) =>
      !m.isEmpty && m != db_box.mac_address &&
        st.records.any (fun r => r.mac_address == m)
  | _ => false

/-- One field of the `setattr` loop of `update_box` over
`box_update.dict(exclude_unset=True)` (src/main.py lines 224–226): an absent
field keeps the stored value `d`, a provided field is overwritten with the
provided value (JSON null included). -/
def presentOr (o : Option (Option String)) (d : Option String) : Option String :=
  match o with
  | none => d
  | some v => v

/-- The whole `setattr` loop.  Writing JSON null into the `nullable=False`
columns `mac_address`/`process` yields `none`: the commit would fail the
NOT NULL constraint. -/
def applyUpdateFields (r : BoxRecord) (u : BoxUpdatePayload) : Option BoxRecord :=
  match presentOr u.mac_address (some r.mac_address),
      presentOr u.process (some r.process) with
  | some mac, some proc =>
      some { r with
        mac_address := mac
        ip_address := presentOr u.ip_address r.ip_address
        main_equipment := presentOr u.main_equipment r.main_equipment
        location := presentOr u.location r.location
        process := proc
        manager := presentOr u.manager r.manager
        note := presentOr u.note r.note }
  | _, _ => none

/-- `update_box` (src/main.py lines 213–231): look the row up by id (404 when
absent), run the duplicate-MAC pre-check, apply the provided fields, refresh
`updated_at`, and commit the changed row in place. -/
def update_box (st : Store) (box_id : Nat) (u : BoxUpdatePayload) (now : Nat) :
    Except ApiError (Store × BoxRecord) :=
  match st.records.find? (fun r => r.id == box_id) with
  | none => .error .notFound
  | some db_box =>
      if updateMacCollides st db_box u then .error .duplicateKey
      else
        match applyUpdateFields db_box u with
        | none => .error .integrityError
        | some r0 =>
            let r1 := { r0 with updated_at := now }
            .ok ({ st with
                    records := st.records.map fun r =>
                      if r.id == box_id then r1 else r },
                 r1)

/-- The `or_(...)` search filter of `export_to_excel` (src/main.py
lines 252–259), duplicated verbatim from `get_boxes` in the source. -/
def exportMatchesSearch (search : String) (r : BoxRecord) : Bool :=
  strContains r.mac_address search || optContains r.ip_address search ||
  optContains r.main_equipment search || optContains r.location search ||
  strContains r.process search || optContains r.manager search

/-- The filter section of `export_to_excel` (src/main.py lines 249–263),
likewise duplicated from `get_boxes`. -/
def exportFilter (records : List BoxRecord) (search process : Option String) :
    List BoxRecord :=
  let afterSearch :=
    if pyTruthy search then records.filter (exportMatchesSearch (search.getD ""))
    else records
  if pyTruthy process then afterSearch.filter (fun r => r.process == process.getD "")
  else afterSearch

/-- `boxes = query.order_by(BoxDB.created_at.desc()).all()` in
`export_to_excel` (src/main.py line 265): the whole filtered result set,
unpaginated, in the same order as the list endpoint. -/
def exportBoxes (st : Store) (search process : Option String) : List BoxRecord :=
  sortByCreatedDesc (exportFilter st.records search process)

/-- One data row of the generated worksheet (src/main.py lines 274–286). -/
structure ExcelRow where
  rowId : Nat
  mac : String
  ip : String
  equipment : String
  loc : String
  process : String
  manager : String
  note : String
  created : String
  updated : String
deriving DecidableEq, Repr

/-- `strftime("%Y-%m-%d %H:%M:%S")` on our abstract ticks: an injective
rendering of the timestamp. -/
def formatTimestamp (t : Nat) : String := toString t

/-- The `ws.append([...])` row built for one box (src/main.py lines 274–286):
NULL text columns are rendered as `""` via `or ""`. -/
def renderRow (r : BoxRecord) : ExcelRow :=
  { rowId := r.id, mac := r.mac_address, ip := r.ip_address.getD "",
    equipment := r.main_equipment.getD "", loc := r.location.getD "",
    process := r.process, manager := r.manager.getD "",
    note := r.note.getD "", created := formatTimestamp r.created_at,
    updated := formatTimestamp r.updated_at }

/-- The sequence of data rows written into the spreadsheet by
`export_to_excel`. -/
def exportRows (st : Store) (search process : Option String) : List ExcelRow :=
  (exportBoxes st search process).map renderRow

/-- One iteration of the `normalize_processes` loop (src/main.py
lines 322–328): truthy process values that differ from their uppercase form
are rewritten and `updated_at` refreshed; the Boolean reports whether the row
changed. -/
def normalizeBox (now : Nat) (r : BoxRecord) : BoxRecord × Bool :=
  if !r.process.isEmpty then
    let newProcess := pyUpper r.process
    if r.process != newProcess then
      ({ r with process := newProcess, updated_at := now }, true)
    else (r, false)
  else (r, false)

/-- `normalize_processes` (src/main.py lines 317–334): full-table scan,
rewriting each row via `normalizeBox` and counting the rows changed. -/
def normalize_processes (st : Store) (now : Nat) : Store × Nat :=
  let result := st.records.foldl
    (fun acc r =>
      let p := normalizeBox now r
      (acc.1 ++ [p.1], acc.2 + (if p.2 then 1 else 0)))
    (([] : List BoxRecord), 0)
  ({ st with records := result.1 }, result.2)

/-- Modelled from the spec's words only (not from the source): the canonical
MAC form the spec describes — "uppercased with `:` separators canonicalized".
Used solely to state claims that compare the code against the spec's notion of
normalization. -/
def specCanonicalMac (v : String) : String :=
  ⟨(pyUpper v).data.map (fun c => if c == '-' then ':' else c)⟩

/-! ### Helper lemmas -/

theorem char_toUpper_idem (c : Char) : c.toUpper.toUpper = c.toUpper := by
  by_cases h : c.toNat ≥ 97 ∧ c.toNat ≤ 122
  · have h1 : c.toUpper = Char.ofNat (c.toNat - 32) := by
      unfold Char.toUpper
      simp [h]
    rw [h1]
    obtain ⟨ha, hb⟩ := h
    generalize hn : c.toNat = n at ha hb
    interval_cases n <;> decide
  · have h1 : c.toUpper = c := by
      unfold Char.toUpper
      simp [h]
    rw [h1, h1]

theorem pyUpper_idem (s : String) : pyUpper (pyUpper s) = pyUpper s := by
  cases s with
  | mk data =>
    show String.mk ((data.map Char.toUpper).map Char.toUpper)
        = String.mk (data.map Char.toUpper)
    rw [List.map_map]
    exact congrArg String.mk
      (List.map_congr_left fun a _ => char_toUpper_idem a)

theorem macRegexMatch_isEmpty_eq_false {v : String} (h : macRegexMatch v = true) :
    v.isEmpty = false := by
  cases hb : v.isEmpty with
  | false => rfl
  | true =>
    have hv : v = "" := (String.isEmpty_iff v).mp hb
    rw [hv] at h
    exact absurd h (by decide)

/-! ### C1: canonicalization of separators in MAC normalization -/

/-- C1 (counterexample): the claim says that a dash-grouped MAC and the
corresponding colon-grouped MAC normalize to the identical canonical string.
In the code, `validate_mac` only uppercases: `aa-bb-cc-dd-ee-ff` is accepted
and normalized to `AA-BB-CC-DD-EE-FF`, which differs from the result of
normalizing `AA:BB:CC:DD:EE:FF`. -/
theorem claim_C1_counterexample :
    validate_mac "aa-bb-cc-dd-ee-ff" = .ok "AA-BB-CC-DD-EE-FF" ∧
    validate_mac "AA:BB:CC:DD:EE:FF" = .ok "AA:BB:CC:DD:EE:FF" ∧
    "AA-BB-CC-DD-EE-FF" ≠ "AA:BB:CC:DD:EE:FF" := by
  decide

/-- C1 (amended): for every MAC string accepted by validation, the normalized
output is the uppercased input with the submitted separators preserved; two
accepted strings whose uppercased forms coincide (in particular, strings
differing only in letter case) normalize identically, but colon-grouped and
dash-grouped forms of the same octets do not. -/
theorem claim_C1_thm (v w : String) (hv : macRegexMatch v = true)
    (hw : macRegexMatch w = true) (hvw : pyUpper v = pyUpper w) :
    validate_mac v = .ok (pyUpper v) ∧ validate_mac w = .ok (pyUpper w) ∧
    validate_mac v = validate_mac w := by
  have hve := macRegexMatch_isEmpty_eq_false hv
  have hwe := macRegexMatch_isEmpty_eq_false hw
  refine ⟨?_, ?_, ?_⟩
  · simp [validate_mac, hve, hv]
  · simp [validate_mac, hwe, hw]
  · simp [validate_mac, hve, hv, hwe, hw, hvw]

/-- Witness for `claim_C1_thm` at two concrete case-variants of the same
dash-grouped MAC. -/
theorem claim_C1_witness :
    macRegexMatch "aa-bb-cc-dd-ee-ff" = true ∧
    macRegexMatch "Aa-bB-cc-DD-ee-fF" = true ∧
    pyUpper "aa-bb-cc-dd-ee-ff" = pyUpper "Aa-bB-cc-DD-ee-fF" ∧
    validate_mac "aa-bb-cc-dd-ee-ff" = validate_mac "Aa-bB-cc-DD-ee-fF" :=
  ⟨by decide, by decide, by decide,
    (claim_C1_thm "aa-bb-cc-dd-ee-ff" "Aa-bB-cc-DD-ee-fF" (by decide) (by decide)
      (by decide)).2.2⟩

/-! ### C8: what `validate_mac` accepts -/

/-- Positional shape condition: hex digits everywhere except at positions
`≡ 2 (mod 3)`, which hold a separator, each independently ':' or '-'. -/
def macShapeAt (cs : List Char) : Prop :=
  ∀ i, (h : i < cs.length) →
    if i % 3 = 2 then isSepChar cs[i] = true else isHexDigitChar cs[i] = true

theorem macShapeAt_nil : macShapeAt [] := by
  intro i hi
  simp at hi

theorem macShapeAt_cons3 (a b s : Char) (rest : List Char) :
    macShapeAt (a :: b :: s :: rest) ↔
      isHexDigitChar a = true ∧ isHexDigitChar b = true ∧ isSepChar s = true ∧
        macShapeAt rest := by
  constructor
  · intro h
    refine ⟨?_, ?_, ?_, ?_⟩
    · simpa using h 0 (by simp)
    · simpa using h 1 (by simp)
    · simpa using h 2 (by simp)
    · intro i hi
      have h3 : i + 3 < (a :: b :: s :: rest).length := by simp; omega
      have hx := h (i + 3) h3
      have hmod : (i + 3) % 3 = i % 3 := by omega
      rw [hmod] at hx
      simpa using hx
  · rintro ⟨ha, hb, hs, hrest⟩ i hi
    match i with
    | 0 => simpa using ha
    | 1 => simpa using hb
    | 2 => simpa using hs
    | j + 3 =>
      have hj : j < rest.length := by simp at hi; omega
      have hx := hrest j hj
      have hmod : (j + 3) % 3 = j % 3 := by omega
      rw [hmod]
      simpa using hx

theorem macGroups_iff (n : Nat) (cs : List Char) :
    macGroups n cs = true ↔ cs.length = 3 * n + 2 ∧ macShapeAt cs := by
  induction n generalizing cs with
  | zero =>
    obtain _ | ⟨a, _ | ⟨b, _ | ⟨c, rest⟩⟩⟩ := cs
    · simp only [show macGroups 0 [] = false from rfl]
      constructor
      · intro h
        exact absurd h (by simp)
      · rintro ⟨hlen, -⟩
        simp only [List.length_nil] at hlen
        omega
    · simp only [show macGroups 0 [a] = false from rfl]
      constructor
      · intro h
        exact absurd h (by simp)
      · rintro ⟨hlen, -⟩
        simp only [List.length_cons, List.length_nil] at hlen
        omega
    · simp only [show macGroups 0 [a, b] = (isHexDigitChar a && isHexDigitChar b)
          from rfl, Bool.and_eq_true]
      constructor
      · rintro ⟨ha, hb⟩
        refine ⟨by simp, ?_⟩
        intro i hi
        simp at hi
        interval_cases i
        · simpa using ha
        · simpa using hb
      · rintro ⟨-, h⟩
        exact ⟨by simpa using h 0 (by simp), by simpa using h 1 (by simp)⟩
    · simp only [show macGroups 0 (a :: b :: c :: rest) = false from rfl]
      constructor
      · intro h
        exact absurd h (by simp)
      · rintro ⟨hlen, -⟩
        simp only [List.length_cons] at hlen
        omega
  | succ n ih =>
    obtain _ | ⟨a, _ | ⟨b, _ | ⟨s, rest⟩⟩⟩ := cs
    · simp only [show macGroups (n + 1) [] = false from rfl]
      constructor
      · intro h
        exact absurd h (by simp)
      · rintro ⟨hlen, -⟩
        simp only [List.length_nil] at hlen
        omega
    · simp only [show macGroups (n + 1) [a] = false from rfl]
      constructor
      · intro h
        exact absurd h (by simp)
      · rintro ⟨hlen, -⟩
        simp only [List.length_cons, List.length_nil] at hlen
        omega
    · simp only [show macGroups (n + 1) [a, b] = false from rfl]
      constructor
      · intro h
        exact absurd h (by simp)
      · rintro ⟨hlen, -⟩
        simp only [List.length_cons, List.length_nil] at hlen
        omega
    · simp only [show ∀ x y z l, macGroups (n + 1) (x :: y :: z :: l)
            = (isHexDigitChar x && isHexDigitChar y && isSepChar z && macGroups n l)
          from fun _ _ _ _ => rfl,
        Bool.and_eq_true, ih, macShapeAt_cons3, List.length_cons]
      constructor
      · rintro ⟨⟨⟨ha, hb⟩, hs⟩, hlen, hrest⟩
        exact ⟨by omega, ha, hb, hs, hrest⟩
      · rintro ⟨hlen, ha, hb, hs, hrest⟩
        exact ⟨⟨⟨ha, hb⟩, hs⟩, by omega, hrest⟩

/-- Modelled from the claim's words, corrected: a 17-character string of six
two-hex-digit groups whose five separators are each independently ':' or '-'. -/
def specMacShape (cs : List Char) : Prop := cs.length = 17 ∧ macShapeAt cs

/-- C8 (counterexample): the claim says the separator must be uniform
throughout, so `AA:BB-CC:DD-EE:FF` should fail with `InvalidFormat`; the code
accepts it (each `[:-]` in the regex is chosen independently). -/
theorem claim_C8_counterexample :
    validate_mac "AA:BB-CC:DD-EE:FF" = .ok "AA:BB-CC:DD-EE:FF" ∧
    validate_mac "AA:BB-CC:DD-EE:FF" ≠ .error .invalidFormat := by
  decide

/-- C8 (amended): validation accepts a string iff it consists of six groups of
two hexadecimal digits with each of the five separators independently ':' or
'-' (mixing allowed) — additionally tolerating one trailing newline, since
Python's `$` matches before it; the empty string fails with `MissingRequired`
and every other rejected string fails with `InvalidFormat`. -/
theorem claim_C8_thm (v : String) :
    ((∃ s, validate_mac v = .ok s) ↔
      (specMacShape v.data ∨
        (v.data.getLast? = some '\n' ∧ specMacShape v.data.dropLast))) ∧
    (validate_mac v = .error .missingRequired ↔ v = "") ∧
    (validate_mac v = .error .invalidFormat ↔
      (v ≠ "" ∧ ¬(specMacShape v.data ∨
        (v.data.getLast? = some '\n' ∧ specMacShape v.data.dropLast)))) := by
  have hmatch : macRegexMatch v = true ↔
      (specMacShape v.data ∨
        (v.data.getLast? = some '\n' ∧ specMacShape v.data.dropLast)) := by
    simp [macRegexMatch, macGroups_iff, specMacShape]
  by_cases he : v.isEmpty = true
  · have hv : v = "" := (String.isEmpty_iff v).mp he
    subst hv
    have h1 : validate_mac "" = .error .missingRequired := rfl
    have h2 : macRegexMatch "" = false := rfl
    rw [h2] at hmatch
    refine ⟨?_, ?_, ?_⟩
    · rw [h1]
      rw [← hmatch]
      constructor
      · rintro ⟨s, hs⟩
        exact absurd hs (by simp)
      · intro h
        cases h
    · simp [h1]
    · rw [h1, ← hmatch]
      simp
  · have heb : v.isEmpty = false := by
      cases hx : v.isEmpty
      · rfl
      · exact absurd hx he
    have hv : v ≠ "" := by
      intro h
      rw [h] at heb
      exact absurd heb (by decide)
    have hval : validate_mac v =
        (if macRegexMatch v then .ok (pyUpper v) else .error .invalidFormat) := by
      simp [validate_mac, heb]
    by_cases hm : macRegexMatch v = true
    · have hvok : validate_mac v = .ok (pyUpper v) := by rw [hval]; simp [hm]
      refine ⟨?_, ?_, ?_⟩
      · rw [hvok]
        constructor
        · intro _
          exact hmatch.mp hm
        · intro _
          exact ⟨pyUpper v, rfl⟩
      · rw [hvok]
        simp [hv]
      · rw [hvok]
        simp [hmatch.mp hm]
    · have hmb : macRegexMatch v = false := by
        cases hx : macRegexMatch v
        · rfl
        · exact absurd hx hm
      rw [hmb] at hmatch
      have hverr : validate_mac v = .error .invalidFormat := by
        rw [hval, hmb]
        simp
      refine ⟨?_, ?_, ?_⟩
      · rw [hverr, ← hmatch]
        constructor
        · rintro ⟨s, hs⟩
          exact absurd hs (by simp)
        · intro h
          cases h
      · rw [hverr]
        simp [hv]
      · rw [hverr, ← hmatch]
        simp [hv]

/-! ### C2: duplicate detection on create -/

theorem validate_mac_ok {v s : String} (h : validate_mac v = .ok s) :
    s = pyUpper v ∧ macRegexMatch v = true := by
  unfold validate_mac at h
  split at h
  · cases h
  · split at h
    · cases h
      exact ⟨rfl, by assumption⟩
    · cases h

theorem boxCreateValidate_ok {raw : RawBoxCreate} {b : BoxPayload}
    (h : boxCreateValidate raw = .ok b) :
    ∃ m, raw.mac_address = some m ∧ validate_mac m = .ok b.mac_address ∧
      ∃ p, raw.process = some p ∧ b.process = validate_process p ∧
        validate_ip raw.ip_address = .ok b.ip_address ∧
        b.main_equipment = raw.main_equipment ∧ b.location = raw.location ∧
        b.manager = raw.manager ∧ b.note = raw.note := by
  unfold boxCreateValidate at h
  split at h
  · cases h
  next m hm =>
    split at h
    · cases h
    next mac hmac =>
      split at h
      · cases h
      next ip hip =>
        split at h
        · cases h
        next p hp =>
          cases h
          exact ⟨m, hm, by rw [hmac], p, hp, rfl, by rw [hip], rfl, rfl, rfl, rfl⟩

/-- The concrete store of the C2 counterexample: one box whose MAC is stored
in the canonical colon form. -/
def ctexStoreC2 : Store :=
  { records :=
      [{ id := 1, mac_address := "AA:BB:CC:DD:EE:FF", ip_address := none,
         main_equipment := none, location := none, process := "ETCH",
         manager := none, note := none, created_at := 1, updated_at := 1 }],
    nextId := 2 }

/-- The concrete request of the C2 counterexample: the same octets, submitted
with dash separators and lowercase letters. -/
def ctexRawC2 : RawBoxCreate :=
  { mac_address := some "aa-bb-cc-dd-ee-ff", ip_address := none,
    main_equipment := none, location := none, process := some "ETCH",
    manager := none, note := none }

/-- C2 (counterexample): the request MAC `aa-bb-cc-dd-ee-ff` normalizes — in
the spec's canonical sense — to the stored MAC `AA:BB:CC:DD:EE:FF`, yet the
create succeeds and a second record is inserted, because the code only
uppercases and compares separator-sensitively. -/
theorem claim_C2_counterexample :
    ctexStoreC2.records.map (fun r => r.mac_address) = ["AA:BB:CC:DD:EE:FF"] ∧
    ctexRawC2.mac_address = some "aa-bb-cc-dd-ee-ff" ∧
    specCanonicalMac "aa-bb-cc-dd-ee-ff" = "AA:BB:CC:DD:EE:FF" ∧
    createBoxEndpoint ctexStoreC2 ctexRawC2 7 ≠ .error .duplicateKey ∧
    (createBoxEndpoint ctexStoreC2 ctexRawC2 7).toOption.map
        (fun p => p.1.records.length) = some 2 := by
  decide

/-- C2 (amended): for a create request that passes validation, the create
fails with `DuplicateKey` — inserting nothing — exactly when some stored
record's MAC equals the request MAC *uppercased with its separators kept*;
the check is case-insensitive but separator-sensitive, so a dash-grouped
request does not collide with the colon-grouped stored form and a new record
is inserted instead. -/
theorem claim_C2_thm (st : Store) (raw : RawBoxCreate) (b : BoxPayload)
    (now : Nat) (hv : boxCreateValidate raw = .ok b) :
    (createBoxEndpoint st raw now = .error .duplicateKey ↔
      ∃ r ∈ st.records, r.mac_address = b.mac_address) ∧
    (∀ m, raw.mac_address = some m → b.mac_address = pyUpper m) ∧
    (∀ st' nb, createBoxEndpoint st raw now = .ok (st', nb) →
      st'.records = st.records ++ [nb] ∧ nb.mac_address = b.mac_address) := by
  have hend : createBoxEndpoint st raw now = create_box st b now := by
    unfold createBoxEndpoint
    rw [hv]
  obtain ⟨m, hm, hmac, -⟩ := boxCreateValidate_ok hv
  refine ⟨?_, ?_, ?_⟩
  · rw [hend]
    unfold create_box
    split
    · next hdup =>
      simp only [List.any_eq_true, beq_iff_eq] at hdup
      simpa using hdup
    · next hdup =>
      simp only [List.any_eq_true, beq_iff_eq] at hdup
      constructor
      · intro h
        cases h
      · intro h
        exact absurd (by simpa using h) hdup
  · intro m2 hm2
    rw [hm] at hm2
    cases hm2
    exact (validate_mac_ok hmac).1
  · intro st' nb h
    rw [hend] at h
    unfold create_box at h
    split at h
    · cases h
    · cases h
      exact ⟨rfl, rfl⟩

/-- Witness for `claim_C2_thm`: the case-variant request
`aa:bb:cc:dd:ee:ff` does collide with the stored colon form. -/
theorem claim_C2_witness :
    boxCreateValidate { ctexRawC2 with mac_address := some "aa:bb:cc:dd:ee:ff" }
        = .ok { mac_address := "AA:BB:CC:DD:EE:FF", ip_address := none,
                main_equipment := none, location := none, process := "ETCH",
                manager := none, note := none } ∧
    createBoxEndpoint ctexStoreC2
        { ctexRawC2 with mac_address := some "aa:bb:cc:dd:ee:ff" } 7
      = .error .duplicateKey :=
  ⟨by decide,
    (claim_C2_thm ctexStoreC2
        { ctexRawC2 with mac_address := some "aa:bb:cc:dd:ee:ff" }
        { mac_address := "AA:BB:CC:DD:EE:FF", ip_address := none,
          main_equipment := none, location := none, process := "ETCH",
          manager := none, note := none } 7 (by decide)).1.mpr
      ⟨{ id := 1, mac_address := "AA:BB:CC:DD:EE:FF", ip_address := none,
         main_equipment := none, location := none, process := "ETCH",
         manager := none, note := none, created_at := 1, updated_at := 1 },
        by decide, by decide⟩⟩

/-! ### C5: the process field on create -/

/-- The concrete request of the C5 counterexample: valid MAC, empty-string
process. -/
def ctexRawC5 : RawBoxCreate :=
  { mac_address := some "AA:BB:CC:DD:EE:FF", ip_address := none,
    main_equipment := none, location := none, process := some "",
    manager := none, note := none }

/-- C5 (counterexample): a create whose `process` is the empty string passes
validation — the validator's `if v:` guard skips falsy values — and the
payload stores the empty string, instead of failing with `MissingRequired`. -/
theorem claim_C5_counterexample :
    (boxCreateValidate ctexRawC5).toOption.map (fun b => b.process) = some "" ∧
    boxCreateValidate ctexRawC5 ≠ .error .missingRequired := by
  decide

/-- C5 (amended): `process` is required on create — an absent field fails
validation (with `MissingRequired` when the other fields are valid) — but the
EMPTY STRING is accepted and stored as the empty string; every nonempty
submitted value is stored uppercased. -/
theorem claim_C5_thm (raw : RawBoxCreate) :
    (raw.process = none → ∀ b, boxCreateValidate raw ≠ .ok b) ∧
    (raw.process = none → ∀ m s, raw.mac_address = some m →
      validate_mac m = .ok s → validate_ip raw.ip_address = .ok raw.ip_address →
      boxCreateValidate raw = .error .missingRequired) ∧
    (∀ b, boxCreateValidate raw = .ok b →
      ∃ p, raw.process = some p ∧
        (p.isEmpty = true → b.process = p) ∧
        (p.isEmpty = false → b.process = pyUpper p)) := by
  refine ⟨?_, ?_, ?_⟩
  · intro hp b hok
    obtain ⟨m, -, -, p, hp2, -⟩ := boxCreateValidate_ok hok
    rw [hp] at hp2
    cases hp2
  · intro hp m s hm hmac hip
    simp only [boxCreateValidate, hm, hmac, hip, hp]
  · intro b hok
    obtain ⟨m, -, -, p, hp2, hproc, -⟩ := boxCreateValidate_ok hok
    refine ⟨p, hp2, ?_, ?_⟩
    · intro he
      rw [hproc]
      simp [validate_process, he]
    · intro he
      rw [hproc]
      simp [validate_process, he]

/-- Witness for `claim_C5_thm`: an absent process with otherwise valid
fields fails with `MissingRequired`. -/
theorem claim_C5_witness :
    boxCreateValidate { ctexRawC5 with process := none }
      = .error .missingRequired :=
  (claim_C5_thm { ctexRawC5 with process := none }).2.1 rfl
    "AA:BB:CC:DD:EE:FF" "AA:BB:CC:DD:EE:FF" rfl (by decide) (by decide)

/-! ### C6: bulk process normalization -/

theorem pyUpper_isEmpty_false {s : String} (h : s.isEmpty = false) :
    (pyUpper s).isEmpty = false := by
  cases hx : (pyUpper s).isEmpty
  · rfl
  · exfalso
    have h1 : pyUpper s = "" := (String.isEmpty_iff _).mp hx
    obtain ⟨d⟩ := s
    have hd : d.map Char.toUpper = [] := congrArg String.data h1
    have hnil : d = [] := List.map_eq_nil.mp hd
    subst hnil
    exact absurd h (by decide)

/-- The changed flag of one `normalize_processes` iteration, closed form. -/
theorem normalizeBox_snd (now : Nat) (r : BoxRecord) :
    (normalizeBox now r).2
      = (!r.process.isEmpty && r.process != pyUpper r.process) := by
  unfold normalizeBox
  by_cases he : r.process.isEmpty
  · simp [he]
  · simp only [Bool.not_eq_true] at he
    by_cases hc : r.process = pyUpper r.process
    · simp [he, ← hc]
    · simp [he, hc]

/-- A row that one pass of `normalize_processes` produced is a fixed point of
the next pass. -/
theorem normalizeBox_normalized (now now2 : Nat) (r : BoxRecord) :
    normalizeBox now2 (normalizeBox now r).1 = ((normalizeBox now r).1, false) := by
  by_cases he : r.process.isEmpty
  · simp [normalizeBox, he]
  · simp only [Bool.not_eq_true] at he
    by_cases hc : r.process = pyUpper r.process
    · have h1 : (normalizeBox now r).1 = r := by simp [normalizeBox, he, ← hc]
      rw [h1]
      simp [normalizeBox, he, ← hc]
    · have h1 : (normalizeBox now r).1
          = { r with process := pyUpper r.process, updated_at := now } := by
        simp [normalizeBox, he, hc]
      rw [h1]
      have he2 : (pyUpper r.process).isEmpty = false := pyUpper_isEmpty_false he
      simp [normalizeBox, he2, pyUpper_idem r.process]

/-- Closed form of the `normalize_processes` fold. -/
theorem normalize_foldl (now : Nat) (l : List BoxRecord)
    (acc : List BoxRecord) (n : Nat) :
    l.foldl
        (fun acc r =>
          let p := normalizeBox now r
          (acc.1 ++ [p.1], acc.2 + (if p.2 then 1 else 0)))
        (acc, n)
      = (acc ++ l.map (fun r => (normalizeBox now r).1),
         n + (l.filter (fun r => (normalizeBox now r).2)).length) := by
  induction l generalizing acc n with
  | nil => simp
  | cons r t ih =>
    simp only [List.foldl_cons, List.map_cons, List.filter_cons]
    rw [ih]
    cases hb : (normalizeBox now r).2 <;>
      simp [hb, List.append_assoc] <;> omega

/-- `normalize_processes`, written as map-and-count. -/
theorem normalize_processes_eq (st : Store) (now : Nat) :
    normalize_processes st now
      = ({ st with records := st.records.map (fun r => (normalizeBox now r).1) },
         (st.records.filter (fun r => (normalizeBox now r).2)).length) := by
  unfold normalize_processes
  rw [normalize_foldl]
  simp

/-- The concrete mixed-case store used by the C6 witness. -/
def demoStoreC6 : Store :=
  { records :=
      [{ id := 1, mac_address := "AA:BB:CC:DD:EE:FF", ip_address := none,
         main_equipment := none, location := none, process := "etch",
         manager := none, note := none, created_at := 1, updated_at := 1 },
       { id := 2, mac_address := "11:22:33:44:55:66", ip_address := none,
         main_equipment := none, location := none, process := "CVD",
         manager := none, note := none, created_at := 2, updated_at := 2 }],
    nextId := 3 }

/-- C6 (confirmed): `normalize_processes` rewrites exactly the rows whose
truthy process differs from its uppercase form, refreshing `updated_at` only
for those rows, reports the count of rows changed, and is idempotent: a
second run returns the same store and count 0. -/
theorem claim_C6_thm (st : Store) (now now2 : Nat) :
    (normalize_processes st now).1.records
        = st.records.map (fun r => (normalizeBox now r).1) ∧
    (normalize_processes st now).2
        = (st.records.filter
            (fun r => !r.process.isEmpty && r.process != pyUpper r.process)).length ∧
    (∀ r, r.process.isEmpty = true ∨ r.process = pyUpper r.process →
        (normalizeBox now r).1 = r) ∧
    (∀ r, r.process.isEmpty = false → r.process ≠ pyUpper r.process →
        (normalizeBox now r).1
          = { r with process := pyUpper r.process, updated_at := now }) ∧
    normalize_processes (normalize_processes st now).1 now2
      = ((normalize_processes st now).1, 0) := by
  refine ⟨?_, ?_, ?_, ?_, ?_⟩
  · rw [normalize_processes_eq]
  · rw [normalize_processes_eq]
    have : ∀ r : BoxRecord,
        (normalizeBox now r).2
          = (!r.process.isEmpty && r.process != pyUpper r.process) :=
      normalizeBox_snd now
    rw [List.filter_congr fun r _ => this r]
  · intro r hr
    cases hr with
    | inl he => simp [normalizeBox, he]
    | inr hc =>
      by_cases he : r.process.isEmpty
      · simp [normalizeBox, he]
      · simp only [Bool.not_eq_true] at he
        simp [normalizeBox, he, ← hc]
  · intro r he hc
    simp [normalizeBox, he, hc]
  · rw [normalize_processes_eq st now, normalize_processes_eq]
    have hmap : (st.records.map (fun r => (normalizeBox now r).1)).map
          (fun r => (normalizeBox now2 r).1)
        = st.records.map (fun r => (normalizeBox now r).1) := by
      rw [List.map_map]
      exact List.map_congr_left fun r _ => by
        simp [Function.comp, normalizeBox_normalized now now2 r]
    have hfil : (st.records.map (fun r => (normalizeBox now r).1)).filter
          (fun r => (normalizeBox now2 r).2) = [] := by
      rw [List.filter_eq_nil]
      intro a ha
      obtain ⟨r, -, hr⟩ := List.mem_map.mp ha
      rw [← hr]
      simp [normalizeBox_normalized now now2 r]
    simp only [hmap, hfil, List.length_nil]

/-- Witness for `claim_C6_thm` on a concrete mixed-case store: the changed
row is uppercased with `updated_at` refreshed, and a second run is a no-op. -/
theorem claim_C6_witness :
    (normalizeBox 5
        { id := 1, mac_address := "AA:BB:CC:DD:EE:FF", ip_address := none,
          main_equipment := none, location := none, process := "etch",
          manager := none, note := none, created_at := 1, updated_at := 1 }).1
      = { id := 1, mac_address := "AA:BB:CC:DD:EE:FF", ip_address := none,
          main_equipment := none, location := none, process := "ETCH",
          manager := none, note := none, created_at := 1, updated_at := 5 } ∧
    normalize_processes (normalize_processes demoStoreC6 5).1 9
      = ((normalize_processes demoStoreC6 5).1, 0) :=
  ⟨(claim_C6_thm demoStoreC6 5 9).2.2.2.1
      { id := 1, mac_address := "AA:BB:CC:DD:EE:FF", ip_address := none,
        main_equipment := none, location := none, process := "etch",
        manager := none, note := none, created_at := 1, updated_at := 1 }
      (by decide) (by decide),
    (claim_C6_thm demoStoreC6 5 9).2.2.2.2⟩

/-! ### C3, C4: pagination and result order -/

theorem sortByCreatedDesc_perm (l : List BoxRecord) : (sortByCreatedDesc l).Perm l :=
  List.perm_insertionSort createdDescRel l

theorem sortByCreatedDesc_sorted (l : List BoxRecord) :
    (sortByCreatedDesc l).Pairwise createdDescRel :=
  List.sorted_insertionSort createdDescRel l

/-- Stability of the modelled `ORDER BY`: the rows of any fixed `created_at`
value appear in the sorted output exactly in their stored (insertion) order. -/
theorem sortByCreatedDesc_filter_created (l : List BoxRecord) (t : Nat) :
    (sortByCreatedDesc l).filter (fun r => r.created_at == t)
      = l.filter (fun r => r.created_at == t) := by
  have hidem : (l.filter (fun r => r.created_at == t)).filter
        (fun r => r.created_at == t) = l.filter (fun r => r.created_at == t) :=
    List.filter_eq_self.mpr fun a ha => (List.mem_filter.mp ha).2
  have hsub : List.Sublist (l.filter (fun r => r.created_at == t))
      (sortByCreatedDesc l) := by
    apply List.sublist_insertionSort
    · apply List.pairwise_of_forall_mem_list
      intro a ha b hb
      have ha2 := (List.mem_filter.mp ha).2
      have hb2 := (List.mem_filter.mp hb).2
      simp only [beq_iff_eq] at ha2 hb2
      show b.created_at ≤ a.created_at
      rw [ha2, hb2]
    · exact List.filter_sublist l
  have hsub2 : List.Sublist (l.filter (fun r => r.created_at == t))
      ((sortByCreatedDesc l).filter (fun r => r.created_at == t)) := by
    have h := hsub.filter (fun r => r.created_at == t)
    rwa [hidem] at h
  have hlen : (l.filter (fun r => r.created_at == t)).length
      = ((sortByCreatedDesc l).filter (fun r => r.created_at == t)).length :=
    (((sortByCreatedDesc_perm l).filter (fun r => r.created_at == t)).length_eq).symm
  exact (hsub2.eq_of_length hlen).symm

/-- The concrete store of the C4 counterexample: two rows with the same
`created_at`, inserted as ids 1 then 2. -/
def ctexStoreC4 : Store :=
  { records :=
      [{ id := 1, mac_address := "AA:BB:CC:DD:EE:01", ip_address := none,
         main_equipment := none, location := none, process := "ETCH",
         manager := none, note := none, created_at := 10, updated_at := 10 },
       { id := 2, mac_address := "AA:BB:CC:DD:EE:02", ip_address := none,
         main_equipment := none, location := none, process := "CVD",
         manager := none, note := none, created_at := 10, updated_at := 10 }],
    nextId := 3 }

/-- C4 (counterexample): with two rows of equal `created_at` inserted as ids
1 then 2, the list endpoint returns them as `[1, 2]` — insertion order, id
ascending — not id descending as claimed. -/
theorem claim_C4_counterexample :
    (ctexStoreC4.records.map fun r => r.created_at) = [10, 10] ∧
    ((get_boxes ctexStoreC4 1 50 none none).items.map fun r => r.id) = [1, 2] ∧
    ((get_boxes ctexStoreC4 1 50 none none).items.map fun r => r.id) ≠ [2, 1] := by
  decide

/-- C4 (amended): the returned records are ordered descending by
`created_at`; the query states no tie-breaker, and in this embedding (a
stable sort over the stored scan order) records with equal `created_at` keep
their stored insertion order — store-assigned id ascending, not descending.
The sorted sequence is a permutation of the filtered rows. -/
theorem claim_C4_thm (st : Store) (page ps : Nat) (search proc : Option String) :
    (get_boxes st page ps search proc).items.Pairwise createdDescRel ∧
    (∀ t, (sortByCreatedDesc (getBoxesFilter st.records search proc)).filter
            (fun r => r.created_at == t)
          = (getBoxesFilter st.records search proc).filter
            (fun r => r.created_at == t)) ∧
    (sortByCreatedDesc (getBoxesFilter st.records search proc)).Perm
      (getBoxesFilter st.records search proc) := by
  refine ⟨?_, ?_, ?_⟩
  · have hitems : (get_boxes st page ps search proc).items
        = ((sortByCreatedDesc (getBoxesFilter st.records search proc)).drop
            ((page - 1) * ps)).take ps := rfl
    rw [hitems]
    exact List.Pairwise.sublist
      ((List.take_sublist _ _).trans (List.drop_sublist _ _))
      (sortByCreatedDesc_sorted _)
  · intro t
    exact sortByCreatedDesc_filter_created _ t
  · exact sortByCreatedDesc_perm _

/-- Any list decomposes as the skipped head, the page slice, and the tail. -/
theorem take_drop_decompose (o k : Nat) (l : List BoxRecord) :
    l = l.take o ++ ((l.drop o).take k ++ l.drop (o + k)) := by
  have h1 : l.take o ++ l.drop o = l := List.take_append_drop o l
  have h2 : (l.drop o).take k ++ (l.drop o).drop k = l.drop o :=
    List.take_append_drop k (l.drop o)
  have h3 : (l.drop o).drop k = l.drop (o + k) := List.drop_drop k o l
  rw [← h3, h2, h1]

/-- Five boxes created in order, with distinct creation times. -/
def fiveBoxStore : Store :=
  { records :=
      [{ id := 1, mac_address := "AA:BB:CC:DD:EE:01", ip_address := none,
         main_equipment := none, location := none, process := "ETCH",
         manager := none, note := none, created_at := 1, updated_at := 1 },
       { id := 2, mac_address := "AA:BB:CC:DD:EE:02", ip_address := none,
         main_equipment := none, location := none, process := "CVD",
         manager := none, note := none, created_at := 2, updated_at := 2 },
       { id := 3, mac_address := "AA:BB:CC:DD:EE:03", ip_address := none,
         main_equipment := none, location := none, process := "ETCH",
         manager := none, note := none, created_at := 3, updated_at := 3 },
       { id := 4, mac_address := "AA:BB:CC:DD:EE:04", ip_address := none,
         main_equipment := none, location := none, process := "CMP",
         manager := none, note := none, created_at := 4, updated_at := 4 },
       { id := 5, mac_address := "AA:BB:CC:DD:EE:05", ip_address := none,
         main_equipment := none, location := none, process := "ETCH",
         manager := none, note := none, created_at := 5, updated_at := 5 }],
    nextId := 6 }

/-- C3 (confirmed): for `page ≥ 1` and `1 ≤ pageSize ≤ 1000` the query skips
exactly `(page-1)*pageSize` matching records, returns the next at most
`pageSize` of them, reports `total` as the pre-pagination match count and
`totalPages` as the ceiling of `total / pageSize` (0 when `total` is 0); in
particular five stored boxes give 2 items and 3 total pages at
`page=1, page_size=2`, and 1 item at `page=3, page_size=2`. -/
theorem claim_C3_thm (st : Store) (page ps : Nat) (search proc : Option String)
    (hpage : 1 ≤ page) (hps1 : 1 ≤ ps) (hps2 : ps ≤ 1000) :
    (get_boxes st page ps search proc).total
        = (getBoxesFilter st.records search proc).length ∧
    (get_boxes st page ps search proc).items.length ≤ ps ∧
    sortByCreatedDesc (getBoxesFilter st.records search proc)
      = (sortByCreatedDesc (getBoxesFilter st.records search proc)).take
          ((page - 1) * ps)
        ++ (get_boxes st page ps search proc).items
        ++ (sortByCreatedDesc (getBoxesFilter st.records search proc)).drop
          ((page - 1) * ps + ps) ∧
    (get_boxes st page ps search proc).items.length
      = min ps ((getBoxesFilter st.records search proc).length
          - (page - 1) * ps) ∧
    (getBoxesFilter st.records search proc).length
      ≤ (get_boxes st page ps search proc).total_pages * ps ∧
    (get_boxes st page ps search proc).total_pages * ps
      < (getBoxesFilter st.records search proc).length + ps ∧
    ((getBoxesFilter st.records search proc).length = 0 →
      (get_boxes st page ps search proc).total_pages = 0) ∧
    (get_boxes fiveBoxStore 1 2 none none).items.length = 2 ∧
    (get_boxes fiveBoxStore 1 2 none none).total_pages = 3 ∧
    (get_boxes fiveBoxStore 3 2 none none).items.length = 1 := by
  have hitems : (get_boxes st page ps search proc).items
      = ((sortByCreatedDesc (getBoxesFilter st.records search proc)).drop
          ((page - 1) * ps)).take ps := rfl
  have htp : (get_boxes st page ps search proc).total_pages
      = ((getBoxesFilter st.records search proc).length + ps - 1) / ps := rfl
  have hslen : (sortByCreatedDesc (getBoxesFilter st.records search proc)).length
      = (getBoxesFilter st.records search proc).length :=
    (sortByCreatedDesc_perm _).length_eq
  refine ⟨rfl, ?_, ?_, ?_, ?_, ?_, ?_, by decide, by decide, by decide⟩
  · rw [hitems]
    rw [List.length_take]
    exact Nat.min_le_left _ _
  · rw [hitems]
    have h := take_drop_decompose ((page - 1) * ps) ps
      (sortByCreatedDesc (getBoxesFilter st.records search proc))
    rw [← List.append_assoc] at h
    exact h
  · rw [hitems, List.length_take, List.length_drop, hslen]
  · rw [htp]
    have hdm := Nat.div_add_mod
      ((getBoxesFilter st.records search proc).length + ps - 1) ps
    have hmlt : ((getBoxesFilter st.records search proc).length + ps - 1) % ps < ps :=
      Nat.mod_lt _ (by omega)
    rw [Nat.mul_comm] at hdm
    generalize hX : ((getBoxesFilter st.records search proc).length + ps - 1) / ps
        * ps = X at hdm ⊢
    omega
  · rw [htp]
    have hdm := Nat.div_add_mod
      ((getBoxesFilter st.records search proc).length + ps - 1) ps
    have hmlt : ((getBoxesFilter st.records search proc).length + ps - 1) % ps < ps :=
      Nat.mod_lt _ (by omega)
    rw [Nat.mul_comm] at hdm
    generalize hX : ((getBoxesFilter st.records search proc).length + ps - 1) / ps
        * ps = X at hdm ⊢
    omega
  · intro h0
    rw [htp, h0]
    exact Nat.div_eq_of_lt (by omega)

/-- Witness for `claim_C3_thm` at the five-box store with
`page=1, page_size=2`. -/
theorem claim_C3_witness :
    (get_boxes fiveBoxStore 1 2 none none).total
      = (getBoxesFilter fiveBoxStore.records none none).length :=
  (claim_C3_thm fiveBoxStore 1 2 none none (by decide) (by decide)
    (by decide)).1

/-! ### C7: partial update -/

theorem applyUpdateFields_eq (r : BoxRecord) (u : BoxUpdatePayload)
    (hm : u.mac_address ≠ some none) (hp : u.process ≠ some none) :
    applyUpdateFields r u = some
      { r with
        mac_address :=
          match u.mac_address with | some (some m) => m | _ => r.mac_address
        ip_address := presentOr u.ip_address r.ip_address
        main_equipment := presentOr u.main_equipment r.main_equipment
        location := presentOr u.location r.location
        process :=
          match u.process with | some (some p) => p | _ => r.process
        manager := presentOr u.manager r.manager
        note := presentOr u.note r.note } := by
  rcases hmo : u.mac_address with _ | (_ | m)
  · rcases hpo : u.process with _ | (_ | p)
    · simp [applyUpdateFields, presentOr, hmo, hpo]
    · exact absurd hpo hp
    · simp [applyUpdateFields, presentOr, hmo, hpo]
  · exact absurd hmo hm
  · rcases hpo : u.process with _ | (_ | p)
    · simp [applyUpdateFields, presentOr, hmo, hpo]
    · exact absurd hpo hp
    · simp [applyUpdateFields, presentOr, hmo, hpo]

/-- A payload that explicitly writes JSON null into one of the
`nullable=False` columns (`mac_address` or `process`) makes the `setattr`
loop produce a row the commit rejects. -/
theorem applyUpdateFields_none (r : BoxRecord) (u : BoxUpdatePayload)
    (h : u.mac_address = some none ∨ u.process = some none) :
    applyUpdateFields r u = none := by
  cases h with
  | inl h => simp [applyUpdateFields, presentOr, h]
  | inr h =>
    rcases hmo : u.mac_address with _ | (_ | m) <;>
      simp [applyUpdateFields, presentOr, hmo, h]

/-- The concrete payload of the C7 counterexample: `process` explicitly set to
JSON null — `BoxUpdate.validate_process` passes falsy `None` through, so the
request is a validated one. -/
def ctexUpdC7 : BoxUpdatePayload :=
  { mac_address := none, ip_address := none, main_equipment := none,
    location := none, process := some none, manager := none, note := none }

/-- C7 (counterexample): the claim says every field explicitly present in the
payload is applied, with `NotFound` and `DuplicateKey` the only failures.  But
a validated request that explicitly sets `process` (or `mac_address`) to JSON
null reaches the `setattr` loop and then fails the NOT NULL constraint at
commit: on an existing box with no MAC collision the update returns the
integrity failure and applies nothing. -/
theorem claim_C7_counterexample :
    ctexUpdC7.process = some none ∧
    update_box fiveBoxStore 1 ctexUpdC7 7 = .error .integrityError ∧
    update_box fiveBoxStore 1 ctexUpdC7 7 ≠ .error .notFound ∧
    update_box fiveBoxStore 1 ctexUpdC7 7 ≠ .error .duplicateKey ∧
    (update_box fiveBoxStore 1 ctexUpdC7 7).isOk = false := by
  decide

/-- C7 (amended): partial update of an existing box — `NotFound` on an
unknown id; `DuplicateKey` exactly when a truthy provided MAC differs from the
row's MAC and equals some stored record's MAC; a payload that explicitly sets
`mac_address` or `process` to JSON null passes validation but fails the
NOT NULL constraint at commit (IntegrityError) and applies nothing; every
other update succeeds, replacing just the targeted row: fields absent from
the payload (including `created_at`, which no payload carries) keep their
stored value, fields explicitly provided (empty string and explicit null for
the nullable columns included) are applied, and `updated_at` is set to now. -/
theorem claim_C7_thm (st : Store) (box_id : Nat) (u : BoxUpdatePayload)
    (now : Nat) :
    (st.records.find? (fun r => r.id == box_id) = none →
      update_box st box_id u now = .error .notFound) ∧
    (∀ db_box, st.records.find? (fun r => r.id == box_id) = some db_box →
      (updateMacCollides st db_box u = true ↔
        ∃ m, u.mac_address = some (some m) ∧ m.isEmpty = false ∧
          m ≠ db_box.mac_address ∧ ∃ r ∈ st.records, r.mac_address = m) ∧
      (updateMacCollides st db_box u = true →
        update_box st box_id u now = .error .duplicateKey) ∧
      (updateMacCollides st db_box u = false →
        (u.mac_address = some none ∨ u.process = some none) →
        update_box st box_id u now = .error .integrityError) ∧
      (updateMacCollides st db_box u = false →
        u.mac_address ≠ some none → u.process ≠ some none →
        (update_box st box_id u now).isOk = true) ∧
      (updateMacCollides st db_box u = false →
        u.mac_address ≠ some none → u.process ≠ some none →
        ∀ st' r1, update_box st box_id u now = .ok (st', r1) →
          st'.records
              = st.records.map (fun r => if r.id == box_id then r1 else r) ∧
          st'.nextId = st.nextId ∧
          r1.id = db_box.id ∧
          r1.created_at = db_box.created_at ∧
          r1.updated_at = now ∧
          (u.mac_address = none → r1.mac_address = db_box.mac_address) ∧
          (∀ m, u.mac_address = some (some m) → r1.mac_address = m) ∧
          (u.ip_address = none → r1.ip_address = db_box.ip_address) ∧
          (∀ v, u.ip_address = some v → r1.ip_address = v) ∧
          (u.main_equipment = none →
            r1.main_equipment = db_box.main_equipment) ∧
          (∀ v, u.main_equipment = some v → r1.main_equipment = v) ∧
          (u.location = none → r1.location = db_box.location) ∧
          (∀ v, u.location = some v → r1.location = v) ∧
          (u.process = none → r1.process = db_box.process) ∧
          (∀ p, u.process = some (some p) → r1.process = p) ∧
          (u.manager = none → r1.manager = db_box.manager) ∧
          (∀ v, u.manager = some v → r1.manager = v) ∧
          (u.note = none → r1.note = db_box.note) ∧
          (∀ v, u.note = some v → r1.note = v))) := by
  constructor
  · intro h
    simp only [update_box, h]
  · intro db_box hfind
    refine ⟨?_, ?_, ?_, ?_, ?_⟩
    · rcases hmo : u.mac_address with _ | (_ | m)
      · simp [updateMacCollides, hmo]
      · simp [updateMacCollides, hmo]
      · simp only [updateMacCollides, hmo, Bool.and_eq_true, Bool.not_eq_true',
          bne_iff_ne, List.any_eq_true, beq_iff_eq]
        constructor
        · rintro ⟨⟨he, hne⟩, r, hr, hrm⟩
          exact ⟨m, rfl, he, hne, r, hr, hrm⟩
        · rintro ⟨m2, hm2, he, hne, r, hr, hrm⟩
          rw [Option.some.injEq, Option.some.injEq] at hm2
          subst hm2
          exact ⟨⟨he, hne⟩, r, hr, hrm⟩
    · intro hc
      simp only [update_box, hfind, hc]
      simp
    · intro hc hnull
      simp only [update_box, hfind, hc, applyUpdateFields_none db_box u hnull]
      simp
    · intro hc hmac hproc
      have happ := applyUpdateFields_eq db_box u hmac hproc
      simp only [update_box, hfind, hc, happ]
      simp [Except.isOk, Except.toBool]
    · intro hc hmac hproc st' r1 h
      have happ := applyUpdateFields_eq db_box u hmac hproc
      simp only [update_box, hfind, hc, happ] at h
      simp only [Bool.false_eq_true, if_false, Except.ok.injEq, Prod.mk.injEq] at h
      obtain ⟨h1, h2⟩ := h
      subst h2
      subst h1
      refine ⟨rfl, rfl, rfl, rfl, rfl, ?_, ?_, ?_, ?_, ?_, ?_, ?_, ?_, ?_, ?_,
        ?_, ?_, ?_, ?_⟩ <;>
        (intros; simp [*, presentOr])

/-- Witness for `claim_C7_thm`: updating an id that is not stored fails
with `NotFound`. -/
theorem claim_C7_witness :
    update_box fiveBoxStore 99
        { mac_address := none, ip_address := none, main_equipment := none,
          location := some (some "Line 9"), process := none, manager := none,
          note := none } 7
      = .error .notFound :=
  (claim_C7_thm fiveBoxStore 99
      { mac_address := none, ip_address := none, main_equipment := none,
        location := some (some "Line 9"), process := none, manager := none,
        note := none } 7).1 (by decide)

/-! ### C9: export refines the unpaginated list query -/

/-- C9 (confirmed): the spreadsheet export applies the identical search and
process filters and the identical ordering as the list endpoint — the source
duplicates the filter block verbatim — so its record sequence equals the
unpaginated list result (any page size that covers the whole match set), and
the rendered rows are exactly that sequence mapped through the row
renderer. -/
theorem claim_C9_thm (st : Store) (search proc : Option String) (ps : Nat)
    (h : (getBoxesFilter st.records search proc).length ≤ ps) :
    exportFilter st.records search proc = getBoxesFilter st.records search proc ∧
    exportBoxes st search proc = (get_boxes st 1 ps search proc).items ∧
    exportRows st search proc
      = ((get_boxes st 1 ps search proc).items).map renderRow := by
  have hfil : exportFilter st.records search proc
      = getBoxesFilter st.records search proc := rfl
  have hlen : (sortByCreatedDesc (getBoxesFilter st.records search proc)).length ≤ ps := by
    rw [(sortByCreatedDesc_perm _).length_eq]
    exact h
  have hbx : exportBoxes st search proc = (get_boxes st 1 ps search proc).items := by
    have hitems : (get_boxes st 1 ps search proc).items
        = ((sortByCreatedDesc (getBoxesFilter st.records search proc)).drop
            ((1 - 1) * ps)).take ps := rfl
    have h0 : (1 - 1) * ps = 0 := by simp
    rw [hitems, h0, List.drop_zero, List.take_of_length_le hlen]
    show sortByCreatedDesc (exportFilter st.records search proc) = _
    rw [hfil]
  refine ⟨hfil, hbx, ?_⟩
  show (exportBoxes st search proc).map renderRow = _
  rw [hbx]

/-- Witness for `claim_C9_thm` at the five-box store with a page size
covering all matches. -/
theorem claim_C9_witness :
    exportBoxes fiveBoxStore none none
      = (get_boxes fiveBoxStore 1 50 none none).items :=
  (claim_C9_thm fiveBoxStore none none 50 (by decide)).2.1

/-! ### C10: empty-string query parameters -/

/-- C10 (confirmed): in the list and export paths, a search or process
parameter supplied as the empty string is falsy (`if search:` / `if process:`)
and is treated exactly like an absent parameter: no filter is applied, every
stored record matches, and an empty-string search on a non-empty store never
yields an empty first page. -/
theorem claim_C10_thm (st : Store) (page ps : Nat)
    (search proc : Option String) :
    get_boxes st page ps (some "") proc = get_boxes st page ps none proc ∧
    get_boxes st page ps search (some "") = get_boxes st page ps search none ∧
    exportRows st (some "") proc = exportRows st none proc ∧
    exportRows st search (some "") = exportRows st search none ∧
    getBoxesFilter st.records (some "") (some "") = st.records ∧
    (1 ≤ ps → st.records ≠ [] →
      (get_boxes st 1 ps (some "") none).items ≠ []) := by
  refine ⟨rfl, rfl, rfl, rfl, rfl, ?_⟩
  intro hps hne heq
  have hitems : (get_boxes st 1 ps (some "") none).items
      = ((sortByCreatedDesc st.records).drop ((1 - 1) * ps)).take ps := rfl
  have h0 : (1 - 1) * ps = 0 := by simp
  rw [hitems, h0, List.drop_zero] at heq
  have hl0 := congrArg List.length heq
  rw [List.length_take, (sortByCreatedDesc_perm _).length_eq] at hl0
  simp only [List.length_nil] at hl0
  have hpos : 0 < st.records.length := List.length_pos.mpr hne
  omega

/-- Witness for `claim_C10_thm`: on the five-box store an empty-string
search still returns a non-empty first page. -/
theorem claim_C10_witness :
    (get_boxes fiveBoxStore 1 50 (some "") none).items ≠ [] :=
  (claim_C10_thm fiveBoxStore 1 50 none none).2.2.2.2.2 (by decide)
    (by decide)

end BoxApi
